import Mathlib

/-!
Verification of the `salafi` reverse proxy (src/index.ts).

The source is a small TypeScript/express reverse proxy for three legacy
sites.  Strings are embedded as `List Char` and every regex used by the
source is embedded as an executable scanner specialised to that regex.
All regex alternations appearing in the source have pairwise-incompatible
alternatives at every choice point (documented at each matcher), so a
deterministic first-match scanner is extensionally equal to the
backtracking regex engine on every input.

Unescaped `.` characters that the source interpolates into regexes
(domain names in `ALLOWED_DOMAINS` and `domainConfig.domain`) are modelled
as genuine regex wildcards, matching any character, exactly as JavaScript
executes them.
-/

namespace Salafi

/-- Strings of the embedded program. -/
abbrev Str := List Char

/-- The double-quote character (written via its code point to keep the
development free of quote-heavy character literals). -/
def dq : Char := Char.ofNat 34

/-- The single-quote character. -/
def sq : Char := Char.ofNat 39

/-- `DomainConfig` from src/index.ts lines 8-12.  The source field `prefix`
is named `proxyPrefix` here. -/
structure DomainConfig where
  proxyPrefix : Str
  domain : Str
  pathPrefix : Str
deriving DecidableEq

/-- Registry entry for `st` (src/index.ts line 16). -/
def stConfig : DomainConfig :=
  { proxyPrefix := "st".data, domain := "salafitalk.net".data, pathPrefix := "st".data }

/-- Registry entry for `sm` (src/index.ts line 17). -/
def smConfig : DomainConfig :=
  { proxyPrefix := "sm".data, domain := "sahihmuslim.com".data, pathPrefix := "sps/smm".data }

/-- Registry entry for `sc` (src/index.ts line 18); note the empty
`pathPrefix`. -/
def scConfig : DomainConfig :=
  { proxyPrefix := "sc".data, domain := "salafitalk.com".data, pathPrefix := "".data }

/-- `DOMAIN_CONFIGS` (src/index.ts lines 15-20), in object insertion
order. -/
def DOMAIN_CONFIGS : List (Str × DomainConfig) :=
  [("st".data, stConfig), ("sm".data, smConfig), ("sc".data, scConfig)]

/-- `DOMAIN_CONFIGS[p]` — JavaScript object lookup by string key
(src/index.ts lines 95, 145). -/
def lookupConfig (p : Str) : Option DomainConfig :=
  if p = "st".data then some stConfig
  else if p = "sm".data then some smConfig
  else if p = "sc".data then some scConfig
  else none

/-- `DOMAIN_TO_CONFIG[d]` — the reverse mapping built on src/index.ts
lines 25-28 (later entries would overwrite earlier ones; the three domains
are distinct, so the map sends each domain to its own config). -/
def domainLookup (d : Str) : Option DomainConfig :=
  if d = "salafitalk.net".data then some stConfig
  else if d = "sahihmuslim.com".data then some smConfig
  else if d = "salafitalk.com".data then some scConfig
  else none

/-! ## Regex building blocks -/

/-- Match a literal pattern at the front of the input; returns the rest of
the input on success. -/
def matchLit : Str → Str → Option Str
  | [], rest => some rest
  | _ :: _, [] => none
  | p :: ps, c :: cs => if p = c then matchLit ps cs else none

/-- Match a pattern in which `.` is the regex wildcard (the source
interpolates domain names into regexes without escaping their dots);
returns the actually matched text and the rest of the input. -/
def matchDot : Str → Str → Option (Str × Str)
  | [], rest => some ([], rest)
  | _ :: _, [] => none
  | p :: ps, c :: cs =>
    if p = '.' ∨ p = c then (matchDot ps cs).map (fun pr => (c :: pr.1, pr.2)) else none

/-- `(href|src)` — the two alternatives are incompatible at the first
character, so first-match is faithful.  Returns the captured attribute name
and the rest. -/
def matchAttr (s : Str) : Option (Str × Str) :=
  match matchLit "href".data s with
  | some r => some ("href".data, r)
  | none => (matchLit "src".data s).map (fun r => ("src".data, r))

/-- Is `c` one of the two quote characters of the class `["']`? -/
def isQuoteCh (c : Char) : Bool := c = dq ∨ c = sq

/-- `["']` — match one quote character. -/
def matchQuoteCh : Str → Option (Char × Str)
  | [] => none
  | c :: cs => if isQuoteCh c then some (c, cs) else none

/-- `https?://` — the greedy optional `s` is forced by the following `:`,
so this is equivalent to trying `https://` and then `http://`. -/
def matchScheme (s : Str) : Option Str :=
  match matchLit "https://".data s with
  | some r => some r
  | none => matchLit "http://".data s

/-- The alternation `(salafitalk.net|sahihmuslim.com|salafitalk.com)` of
src/index.ts line 45, with `.` as wildcard.  At any position at most one
alternative can match (they disagree on a literal character pairwise), so
first-match with no cross-alternative backtracking is faithful.  Returns
the captured text (`$2` of the regex) and the rest. -/
def matchDomainAlt (s : Str) : Option (Str × Str) :=
  match matchDot "salafitalk.net".data s with
  | some r => some r
  | none =>
    match matchDot "sahihmuslim.com".data s with
    | some r => some r
    | none => matchDot "salafitalk.com".data s

/-- `/(?:st|sps/smm|)/` of src/index.ts line 45 — a `/`, then the
alternation of all configured path prefixes (including the empty one for
`sc`), then `/`.  The three effective alternatives `st/`, `sps/smm/` and
`/` are pairwise incompatible, so first-match is faithful. -/
def matchPathPre (s : Str) : Option Str :=
  match s with
  | '/' :: rest =>
    (match matchLit "st/".data rest with
     | some r => some r
     | none =>
       match matchLit "sps/smm/".data rest with
       | some r => some r
       | none => matchLit "/".data rest)
  | _ => none

/-! ## The four rewrite rules of `HtmlModifier.modifyHtml`
(src/index.ts lines 36-63) -/

/-- One match attempt of the absolute-URL regex
`(href|src)=["']https?://(domains)/(?:pathPrefixes)/` (line 45).
Returns `(attr, capturedDomainText, restOfInput)`. -/
def tryMatchA (s : Str) : Option (Str × Str × Str) :=
  (matchAttr s).bind fun ar =>
  (matchLit "=".data ar.2).bind fun s2 =>
  (matchQuoteCh s2).bind fun qr =>
  (matchScheme qr.2).bind fun s4 =>
  (matchDomainAlt s4).bind fun dr =>
  (matchPathPre dr.2).map fun s6 => (ar.1, dr.1, s6)

/-- The common replacement text `${attr}="/${prefix}/` used by rules 1-3. -/
def attrEqQuote (attr pfx : Str) : Str :=
  attr ++ '=' :: dq :: '/' :: (pfx ++ ['/'])

/-- Global replace for the absolute-URL rule (line 44-47).  The callback
looks the captured domain text up in `DOMAIN_TO_CONFIG`; a wildcard-matched
text outside the table makes the JavaScript callback throw a `TypeError`
(`undefined.prefix`), modelled as `none`.  Fuel-driven so the function is
structurally recursive; every match consumes at least 12 characters, so
`fuel = length of input` (see `scanA`) never runs out. -/
def scanAFuel : Nat → Str → Option Str
  | 0, s => some s
  | _ + 1, [] => some []
  | n + 1, c :: cs =>
    match tryMatchA (c :: cs) with
    | some (attr, domText, rest) =>
      match domainLookup domText with
      | some cfg => (scanAFuel n rest).map (fun t => attrEqQuote attr cfg.proxyPrefix ++ t)
      | none => none
    | none => (scanAFuel n cs).map (fun t => c :: t)

def scanA (s : Str) : Option Str := scanAFuel s.length s

/-- One match attempt of the same-site root-relative regex
`(href|src)=["']/(?:pathPrefix)/` (line 50). -/
def tryMatchB (cfg : DomainConfig) (s : Str) : Option (Str × Str) :=
  (matchAttr s).bind fun ar =>
  (matchLit "=".data ar.2).bind fun s2 =>
  (matchQuoteCh s2).bind fun qr =>
  (matchLit ('/' :: (cfg.pathPrefix ++ ['/'])) qr.2).map fun s4 => (ar.1, s4)

def scanBFuel (cfg : DomainConfig) : Nat → Str → Str
  | 0, s => s
  | _ + 1, [] => []
  | n + 1, c :: cs =>
    match tryMatchB cfg (c :: cs) with
    | some (attr, rest) => attrEqQuote attr cfg.proxyPrefix ++ scanBFuel cfg n rest
    | none => c :: scanBFuel cfg n cs

def scanB (cfg : DomainConfig) (s : Str) : Str := scanBFuel cfg s.length s

/-- One match attempt of the other-root-relative regex
`(href|src)=["']/(?!prefix)` (line 55): the negative lookahead consumes
nothing; the match ends after the `/`. -/
def tryMatchC (cfg : DomainConfig) (s : Str) : Option (Str × Str) :=
  (matchAttr s).bind fun ar =>
  (matchLit "=".data ar.2).bind fun s2 =>
  (matchQuoteCh s2).bind fun qr =>
  match qr.2 with
  | '/' :: s4 => if (matchLit cfg.proxyPrefix s4).isSome then none else some (ar.1, s4)
  | _ => none

def scanCFuel (cfg : DomainConfig) : Nat → Str → Str
  | 0, s => s
  | _ + 1, [] => []
  | n + 1, c :: cs =>
    match tryMatchC cfg (c :: cs) with
    | some (attr, rest) => attrEqQuote attr cfg.proxyPrefix ++ scanCFuel cfg n rest
    | none => c :: scanCFuel cfg n cs

def scanC (cfg : DomainConfig) (s : Str) : Str := scanCFuel cfg s.length s

/-- One match attempt of the relative-URL regex
`(href|src)=["'](?!http|https|//)([^"']*)["']` (line 60).  The lookahead
rejects values starting with `http` (which subsumes `https`) or `//` —
and nothing else; in particular values starting with a single `/` pass.
The greedy `[^"']*` capture runs to the first quote character, which the
trailing `["']` must then consume. -/
def tryMatchD (s : Str) : Option (Str × Str × Str) :=
  (matchAttr s).bind fun ar =>
  (matchLit "=".data ar.2).bind fun s2 =>
  (matchQuoteCh s2).bind fun qr =>
  if (matchLit "http".data qr.2).isSome ∨ (matchLit "//".data qr.2).isSome then none
  else
    let cap := qr.2.takeWhile (fun c => !(isQuoteCh c))
    match qr.2.dropWhile (fun c => !(isQuoteCh c)) with
    | _ :: s4 => some (ar.1, cap, s4)
    | [] => none

def scanDFuel (cfg : DomainConfig) : Nat → Str → Str
  | 0, s => s
  | _ + 1, [] => []
  | n + 1, c :: cs =>
    match tryMatchD (c :: cs) with
    | some (attr, cap, rest) =>
      (attr ++ '=' :: dq :: '/' :: (cfg.proxyPrefix ++ '/' :: (cap ++ [dq])))
        ++ scanDFuel cfg n rest
    | none => c :: scanDFuel cfg n cs

def scanD (cfg : DomainConfig) (s : Str) : Str := scanDFuel cfg s.length s

/-- `String.prototype.includes` (src/index.ts line 38). -/
def includesStr (needle : Str) : Str → Bool
  | [] => (matchLit needle []).isSome
  | c :: cs => (matchLit needle (c :: cs)).isSome || includesStr needle cs

/-- `String.prototype.replace` with a plain-string pattern (src/index.ts
line 39): replaces the first occurrence only. -/
def replaceFirstStr (needle repl : Str) : Str → Str
  | [] => if needle = [] then repl else []
  | c :: cs =>
    match matchLit needle (c :: cs) with
    | some rest => repl ++ rest
    | none => c :: replaceFirstStr needle repl cs

/-- `HtmlModifier.modifyHtml` (src/index.ts lines 36-63): insert the UTF-8
meta tag if absent, then apply the four regex replaces in order.  `none`
models the `TypeError` thrown when the absolute-URL callback hits a
wildcard-matched domain outside `DOMAIN_TO_CONFIG`. -/
def modifyHtml (cfg : DomainConfig) (html : Str) : Option Str :=
  let html1 :=
    if includesStr "<meta charset=\"utf-8\"".data html then html
    else replaceFirstStr "</head>".data "<meta charset=\"utf-8\">\n</head>".data html
  (scanA html1).map (fun h2 => scanD cfg (scanC cfg (scanB cfg h2)))

/-! ## `ProxyHandler` (src/index.ts lines 66-229) -/

/-- `String.prototype.split` with a single-character separator
(src/index.ts lines 92, 138). -/
def splitOnChar (sep : Char) : Str → List Str
  | [] => [[]]
  | c :: cs =>
    let r := splitOnChar sep cs
    if c = sep then [] :: r
    else
      match r with
      | [] => [[c]]
      | h :: t => (c :: h) :: t

/-- `url.split('/').filter(Boolean)`: the empty string is the only falsy
string. -/
def pathPartsOf (url : Str) : List Str :=
  (splitOnChar '/' url).filter (fun p => !p.isEmpty)

/-- Prefix resolution and target-URL construction of `ProxyHandler.handle`
(src/index.ts lines 138-156): `none` models the silent early `return` for
an empty path or unknown prefix (in which case no outbound request is
made); otherwise the resolved config and the target URL
`http://{domain}/{pathPrefix}/{remaining segments joined by '/'}`. -/
def resolveTarget (url : Str) : Option (DomainConfig × Str) :=
  match pathPartsOf url with
  | [] => none
  | p :: rest =>
    (lookupConfig p).map fun cfg =>
      (cfg, "http://".data ++ cfg.domain ++ '/' :: (cfg.pathPrefix ++ '/' :: List.intercalate ['/'] rest))

/-- ASCII lowercasing, modelling `String.prototype.toLowerCase` on the
header names involved. -/
def toLowerStr (s : Str) : Str := s.map Char.toLower

/-- `FORBIDDEN_HEADERS` (src/index.ts lines 69-78). -/
def FORBIDDEN_HEADERS : List Str :=
  ["host".data, "connection".data, "content-length".data, "transfer-encoding".data,
   "keep-alive".data, "upgrade".data, "expect".data, "proxy-connection".data]

/-- `Headers.get` (case-insensitive, first entry; node-fetch stores names
lowercased, the lookup names used by the source are lowercase). -/
def hGet (hs : List (Str × Str)) (name : Str) : Option Str :=
  (hs.find? (fun kv => toLowerStr kv.1 == name)).map (fun kv => kv.2)

/-- `Headers.set` on a name that is present: replace its value. -/
def hSet (hs : List (Str × Str)) (name v : Str) : List (Str × Str) :=
  hs.map (fun kv => if toLowerStr kv.1 == name then (kv.1, v) else kv)

/-- The anchored first match of
`^https?://${domainConfig.domain}/${domainConfig.pathPrefix}/`
(src/index.ts line 176); the interpolated domain's dots are wildcards.
Returns the input remaining after the matched leading part. -/
def matchLocTarget (cfg : DomainConfig) (loc : Str) : Option Str :=
  (matchScheme loc).bind fun s1 =>
  (matchDot cfg.domain s1).bind fun dr =>
  matchLit ('/' :: (cfg.pathPrefix ++ ['/'])) dr.2

/-- `location.replace(^https?://domain/pathPrefix/, '/prefix/')`
(src/index.ts lines 175-178): anchored, so at most one replacement. -/
def locationRewrite (cfg : DomainConfig) (loc : Str) : Str :=
  match matchLocTarget cfg loc with
  | some rest => '/' :: (cfg.proxyPrefix ++ '/' :: rest)
  | none => loc

/-- An origin response as seen by `handle` after `fetch`. -/
structure OriginResponse where
  status : Nat
  headers : List (Str × Str)
  body : List Nat
deriving DecidableEq

/-- The redirect interception of src/index.ts lines 171-181: for a 3xx
status with a `location` header, that header's value is rewritten; all
other headers, and all headers of non-3xx responses, are untouched. -/
def redirectStepHeaders (cfg : DomainConfig) (r : OriginResponse) : List (Str × Str) :=
  if 300 ≤ r.status ∧ r.status < 400 then
    match hGet r.headers "location".data with
    | some loc => hSet r.headers "location".data (locationRewrite cfg loc)
    | none => r.headers
  else r.headers

/-- What the proxy sends back: `raw` models `handleNonHtmlResponse`
(headers copied, body piped); `html` models the HTML path
(`res.setHeader('Content-Type', ...)` then `res.send(text)`); `err` models
an error/diagnostic `res.status(n).send(msg)`. -/
inductive ProxyOut where
  | raw (status : Nat) (headers : List (Str × Str)) (body : List Nat)
  | html (status : Nat) (contentType : Str) (text : Str)
  | err (status : Nat) (message : Str)
deriving DecidableEq

/-- The response-header filter of `handleNonHtmlResponse`
(src/index.ts lines 128-132). -/
def relayHeaders (hs : List (Str × Str)) : List (Str × Str) :=
  hs.filter (fun kv => decide (toLowerStr kv.1 ∉ FORBIDDEN_HEADERS))

/-- The `domainToEncoding` table of src/index.ts lines 204-208. -/
def domainToEncoding : List (Str × Str) :=
  [("salafitalk.net".data, "iso-8859-1".data),
   ("sahihmuslim.com".data, "windows-1256".data),
   ("salafitalk.com".data, "iso-8859-1".data)]

def encodingOf (d : Str) : Str :=
  ((domainToEncoding.find? (fun kv => kv.1 == d)).map (fun kv => kv.2)).getD []

/-- Models `iconv.decode(buffer, encoding)` for the two single-byte codecs
the source uses (`iso-8859-1`, `windows-1256`): every byte decodes to
exactly one character, so the decoded text is empty exactly when the body
is empty.  The map is the identity code-point map — exact for iso-8859-1;
for windows-1256 the high-byte character values differ, but no claim
depends on them, only on per-byte totality and emptiness. -/
def decodeBytes (_enc : Str) (body : List Nat) : Str :=
  body.map (fun b => Char.ofNat (b % 256))

/-- `ProxyHandler.handleHtmlResponse` (src/index.ts lines 200-227): decode
per the site's encoding; if the decoded text is falsy (empty), respond
500 `Failed to decode text`; otherwise rewrite and serve as UTF-8 with the
already-set origin status.  `none` models a thrown `TypeError` from the
rewriter (caught by `handle`). -/
def handleHtmlResponse (d : Str) (status : Nat) (body : List Nat) : Option ProxyOut :=
  match domainLookup d with
  | none => none
  | some cfg =>
    let text := decodeBytes (encodingOf d) body
    if text = [] then some (ProxyOut.err 500 "Failed to decode text".data)
    else (modifyHtml cfg text).map
      (fun h => ProxyOut.html status "text/html; charset=utf-8".data h)

/-- The response post-processing of `ProxyHandler.handle`
(src/index.ts lines 170-192): redirect interception, then content-type
dispatch — HTML responses go through `handleHtmlResponse`, everything else
is relayed with filtered headers and the body piped through unchanged. -/
def handleResolved (cfg : DomainConfig) (r : OriginResponse) : Option ProxyOut :=
  let hdrs := redirectStepHeaders cfg r
  if includesStr "text/html".data ((hGet hdrs "content-type".data).getD []) then
    handleHtmlResponse cfg.domain r.status r.body
  else some (ProxyOut.raw r.status (relayHeaders hdrs) r.body)

/-- A thrown JavaScript error as the catch block reads it: an optional
numeric `status` field and an optional string `message` field. -/
structure JsError where
  status : Option Nat
  message : Option Str
deriving DecidableEq

/-- The catch block of `ProxyHandler.handle` (src/index.ts lines 193-197):
`res.status(error.status || 500).send(error.message || 'Proxy request
failed')`.  `||` falls through on falsy values: the number `0` and the
empty string are falsy. -/
def errorResponse (e : JsError) : Nat × Str :=
  (match e.status with
   | some n => if n = 0 then 500 else n
   | none => 500,
   match e.message with
   | some m => if m = [] then "Proxy request failed".data else m
   | none => "Proxy request failed".data)

/-! ## Referer reconstruction (src/index.ts lines 85-104) -/

theorem matchLit_self (p s : Str) : matchLit p (p ++ s) = some s := by
  induction p with
  | nil => rfl
  | cons c cs ih => simp [matchLit, ih]

theorem matchDot_self (p s : Str) : matchDot p (p ++ s) = some (p, s) := by
  induction p with
  | nil => rfl
  | cons c cs ih => simp [matchDot, ih]

theorem matchScheme_http (s : Str) : matchScheme ("http://".data ++ s) = some s := rfl

theorem matchScheme_https (s : Str) : matchScheme ("https://".data ++ s) = some s := by
  unfold matchScheme
  rw [matchLit_self]

theorem splitOnChar_no_sep (sep : Char) (s : Str) (h : sep ∉ s) :
    splitOnChar sep s = [s] := by
  induction s with
  | nil => rfl
  | cons c cs ih =>
    have hc : ¬ c = sep := by rintro rfl; exact h (by simp)
    have ih2 := ih (fun hm => h (by simp [hm]))
    simp [splitOnChar, hc, ih2]

theorem splitOnChar_append_sep (sep : Char) (s t : Str) (h : sep ∉ s) :
    splitOnChar sep (s ++ sep :: t) = s :: splitOnChar sep t := by
  induction s with
  | nil => simp [splitOnChar]
  | cons c cs ih =>
    have hc : ¬ c = sep := by rintro rfl; exact h (by simp)
    have ih2 := ih (fun hm => h (by simp [hm]))
    simp [splitOnChar, hc, ih2]

theorem interNil (d : Str) : List.intercalate d ([] : List Str) = [] := rfl

theorem interSingle (d : Str) (s : Str) : List.intercalate d [s] = s := by
  simp [List.intercalate, List.intersperse]

theorem interConsCons (d : Str) (s s2 : Str) (r : List Str) :
    List.intercalate d (s :: s2 :: r) = s ++ d ++ List.intercalate d (s2 :: r) := by
  simp [List.intercalate, List.intersperse, List.append_assoc]

theorem filterSplit_intercalate (sep : Char) :
    ∀ (segs : List Str), (∀ s ∈ segs, s ≠ [] ∧ sep ∉ s) →
      (splitOnChar sep (List.intercalate [sep] segs)).filter (fun q => !q.isEmpty) = segs
  | [], _ => by simp [interNil, splitOnChar]
  | [s], h => by
    have hs := h s (by simp)
    rw [interSingle, splitOnChar_no_sep sep s hs.2]
    cases s with
    | nil => exact absurd rfl hs.1
    | cons a t => simp
  | s :: s2 :: r, h => by
    have hs := h s (by simp)
    have e : List.intercalate [sep] (s :: s2 :: r)
        = s ++ sep :: List.intercalate [sep] (s2 :: r) := by
      rw [interConsCons]; simp
    rw [e, splitOnChar_append_sep sep s _ hs.2]
    have ih := filterSplit_intercalate sep (s2 :: r) (fun x hx => h x (List.mem_cons_of_mem _ hx))
    cases s with
    | nil => exact absurd rfl hs.1
    | cons a t => simp [ih]

theorem splitFilter_build (p : Str) (segs : List Str) (hp : p ≠ [] ∧ '/' ∉ p)
    (hsegs : ∀ s ∈ segs, s ≠ [] ∧ '/' ∉ s) :
    (splitOnChar '/' ('/' :: (p ++ '/' :: List.intercalate ['/'] segs))).filter
      (fun q => !q.isEmpty) = p :: segs := by
  have e1 : splitOnChar '/' ('/' :: (p ++ '/' :: List.intercalate ['/'] segs))
      = [] :: splitOnChar '/' (p ++ '/' :: List.intercalate ['/'] segs) := by
    simp [splitOnChar]
  rw [e1, splitOnChar_append_sep '/' p _ hp.2]
  have e2 := filterSplit_intercalate '/' segs hsegs
  cases p with
  | nil => exact absurd rfl hp.1
  | cons a t => simp [e2]

theorem pathPartsOf_build (p : Str) (segs : List Str) (hp : p ≠ [] ∧ '/' ∉ p)
    (hsegs : ∀ s ∈ segs, s ≠ [] ∧ '/' ∉ s) :
    pathPartsOf ('/' :: (p ++ '/' :: List.intercalate ['/'] segs)) = p :: segs := by
  unfold pathPartsOf
  exact splitFilter_build p segs hp hsegs

/-! ## Claim theorems -/

/-- C2: the HTML link rewriter is NOT idempotent — the source's final
relative-URL rule re-prefixes values that already start with
`/{prefix}`, so each application of `modifyHtml` prepends another
`/st/`: `href="/a"` rewrites to `href="/st//st/a"`, and rewriting that
output again yields the different string `href="/st//st//st/a"`. -/
theorem C2_rewrite_not_idempotent :
    modifyHtml stConfig "href=\"/a\"".data = some "href=\"/st//st/a\"".data
    ∧ modifyHtml stConfig "href=\"/st//st/a\"".data = some "href=\"/st//st//st/a\"".data
    ∧ "href=\"/st//st//st/a\"".data ≠ "href=\"/st//st/a\"".data := by
  refine ⟨by decide, by decide, by decide⟩

/-- C3: an attribute value already beginning with the target prefix
`/st` IS double-prefixed: the relative-URL rule (src/index.ts line 60)
matches `href="/st/a"` (its lookahead excludes only `http` and `//`) and
produces `href="/st//st/a"`. -/
theorem C3_double_prefixed :
    modifyHtml stConfig "href=\"/st/a\"".data = some "href=\"/st//st/a\"".data
    ∧ "href=\"/st//st/a\"".data ≠ "href=\"/st/a\"".data := by
  refine ⟨by decide, by decide⟩

/-- C4: a page proxied for site `sm` containing an absolute link to site
`st`'s origin is NOT rewritten to `/st/...`: the absolute rule does map
`http://salafitalk.net/st/a` to `/st/a`, but the later root-relative and
relative rules of the same pipeline re-prefix it with the current site's
prefix, producing `/sm//sm/st/a`. -/
theorem C4_cross_site_mangled :
    modifyHtml smConfig "href=\"http://salafitalk.net/st/a\"".data
      = some "href=\"/sm//sm/st/a\"".data
    ∧ "href=\"/sm//sm/st/a\"".data ≠ "href=\"/st/a\"".data := by
  refine ⟨by decide, by decide⟩

/-- C1 counterexample: for site `sc` (empty `originPathPrefix`) the empty
prefix does NOT collapse — the target URL for inbound `/sc/foo` is
`http://salafitalk.com//foo`, with a double slash, not
`http://salafitalk.com/foo`. -/
theorem C1_counterexample :
    resolveTarget "/sc/foo".data = some (scConfig, "http://salafitalk.com//foo".data)
    ∧ "http://salafitalk.com//foo".data ≠ "http://salafitalk.com/foo".data := by
  refine ⟨by decide, by decide⟩

/-- C6 counterexample: the domain is interpolated into the location regex
unescaped, so its `.` matches any character: the location
`http://salafitalkXnet/st/page2` does not begin with
`http://salafitalk.net/st/` (they differ within the first 18 characters)
yet it is rewritten instead of passing through unchanged. -/
theorem C6_counterexample :
    locationRewrite stConfig "http://salafitalkXnet/st/page2".data = "/st/page2".data
    ∧ List.take 18 "http://salafitalkXnet/st/page2".data
        ≠ List.take 18 "http://salafitalk.net/st/page2".data
    ∧ locationRewrite stConfig "http://salafitalkXnet/st/page2".data
        ≠ "http://salafitalkXnet/st/page2".data := by
  refine ⟨by decide, by decide, by decide⟩

/-- C9 (amended): the catch block maps a thrown error to status
`error.status` when that field is present and non-zero (`||` falls through
on the falsy `0`), else 500; and to body `error.message` when present and
non-empty, else `Proxy request failed`.  It never re-throws:
`errorResponse` is total. -/
theorem C9_error_response (e : JsError) :
    (∀ n, e.status = some n → n ≠ 0 → (errorResponse e).1 = n)
    ∧ ((e.status = none ∨ e.status = some 0) → (errorResponse e).1 = 500)
    ∧ (∀ m, e.message = some m → m ≠ [] → (errorResponse e).2 = m)
    ∧ ((e.message = none ∨ e.message = some []) →
        (errorResponse e).2 = "Proxy request failed".data) := by
  refine ⟨?_, ?_, ?_, ?_⟩
  · intro n hn hn0
    simp [errorResponse, hn, hn0]
  · rintro (hn | hn) <;> simp [errorResponse, hn]
  · intro m hm hm0
    simp [errorResponse, hm, hm0]
  · rintro (hm | hm) <;> simp [errorResponse, hm]

theorem C9_error_witness :
    (errorResponse ⟨some 404, some "nope".data⟩).1 = 404
    ∧ (errorResponse ⟨some 404, some "nope".data⟩).2 = "nope".data
    ∧ (errorResponse ⟨none, none⟩).1 = 500
    ∧ (errorResponse ⟨none, none⟩).2 = "Proxy request failed".data := by
  refine ⟨(C9_error_response ⟨some 404, some "nope".data⟩).1 404 rfl (by decide),
    (C9_error_response ⟨some 404, some "nope".data⟩).2.2.1 "nope".data rfl (by decide),
    (C9_error_response ⟨none, none⟩).2.1 (Or.inl rfl),
    (C9_error_response ⟨none, none⟩).2.2.2 (Or.inl rfl)⟩

/-- C9 counterexample: an error whose `status` field is present but `0`
yields response status 500, not 0 — `||` tests truthiness, not
presence. -/
theorem C9_counterexample :
    errorResponse ⟨some 0, some "boom".data⟩ = (500, "boom".data)
    ∧ (500 : Nat) ≠ 0 := by
  refine ⟨by decide, by decide⟩

/-- C8 counterexample: for a non-HTML 301 response carrying
`location: http://salafitalk.net/st/x`, the proxy does not copy that
(non-forbidden) header verbatim — the relayed `location` value is the
rewritten `/st/x`. -/
theorem C8_counterexample :
    handleResolved stConfig
      { status := 301,
        headers := [("content-type".data, "image/png".data),
                    ("location".data, "http://salafitalk.net/st/x".data)],
        body := [1, 2, 3] }
      = some (ProxyOut.raw 301
          [("content-type".data, "image/png".data), ("location".data, "/st/x".data)]
          [1, 2, 3])
    ∧ ("location".data, "http://salafitalk.net/st/x".data) ∉
        [(("content-type".data, "image/png".data) : Str × Str),
         ("location".data, "/st/x".data)] := by
  refine ⟨by decide, by decide⟩

/-- C10 counterexample: a non-empty text/html body is not always rewritten
and served — this body decodes to
`href="http://salafitalkXnet/st/a"`, the absolute-URL regex matches it
with the unescaped `.` of `salafitalk.net` acting as a wildcard, the
rewrite callback's `DOMAIN_TO_CONFIG` lookup returns `undefined`, and the
rewriter throws (`none`) instead of serving a page. -/
theorem C10_counterexample :
    handleHtmlResponse "salafitalk.net".data 200
        ("href=\"http://salafitalkXnet/st/a\"".data.map Char.toNat) = none
    ∧ decodeBytes "iso-8859-1".data
        ("href=\"http://salafitalkXnet/st/a\"".data.map Char.toNat) ≠ [] := by
  refine ⟨by decide, by decide⟩

/-- C1 (amended): for every configured prefix `p` and slash-free non-empty
remaining segments, the outbound request for `/p/rest` targets
`http://{originHost}/{originPathPrefix}/rest` — where the path prefix is
spliced in verbatim, so an empty `originPathPrefix` (site `sc`) leaves a
double slash rather than collapsing. -/
theorem C1_target_url (cfg : DomainConfig) (p : Str) (segs : List Str)
    (hmem : (p, cfg) ∈ DOMAIN_CONFIGS)
    (hsegs : ∀ s ∈ segs, s ≠ [] ∧ '/' ∉ s) :
    resolveTarget ('/' :: (p ++ '/' :: List.intercalate ['/'] segs))
      = some (cfg, "http://".data ++ cfg.domain
          ++ '/' :: (cfg.pathPrefix ++ '/' :: List.intercalate ['/'] segs)) := by
  have hp : p ≠ [] ∧ '/' ∉ p := by
    simp only [DOMAIN_CONFIGS, List.mem_cons, List.not_mem_nil, or_false,
      Prod.mk.injEq] at hmem
    rcases hmem with ⟨h1, _⟩ | ⟨h1, _⟩ | ⟨h1, _⟩ <;> subst h1 <;> exact ⟨by decide, by decide⟩
  have hlook : lookupConfig p = some cfg := by
    simp only [DOMAIN_CONFIGS, List.mem_cons, List.not_mem_nil, or_false,
      Prod.mk.injEq] at hmem
    rcases hmem with ⟨h1, h2⟩ | ⟨h1, h2⟩ | ⟨h1, h2⟩ <;> subst h1 <;> subst h2 <;> decide
  unfold resolveTarget
  rw [pathPartsOf_build p segs hp hsegs]
  simp [hlook]

theorem C1_target_url_witness :
    resolveTarget "/st/page".data = some (stConfig, "http://salafitalk.net/st/page".data) := by
  have h := C1_target_url stConfig "st".data ["page".data] (by decide) (by decide)
  have e1 : ('/' :: ("st".data ++ '/' :: List.intercalate ['/'] [("page".data)]))
      = "/st/page".data := by decide
  have e2 : ("http://".data ++ stConfig.domain
      ++ '/' :: (stConfig.pathPrefix ++ '/' :: List.intercalate ['/'] [("page".data)]))
      = "http://salafitalk.net/st/page".data := by decide
  rw [e1, e2] at h
  exact h

/-- The anchored redirect-location pattern matches the genuine
`http://{domain}/{pathPrefix}/` head and returns the remainder. -/
theorem matchLocTarget_http (cfg : DomainConfig) (rest : Str) :
    matchLocTarget cfg ("http://".data ++ cfg.domain ++ '/' :: (cfg.pathPrefix ++ '/' :: rest))
      = some rest := by
  unfold matchLocTarget
  rw [List.append_assoc, matchScheme_http]
  simp only [Option.bind]
  rw [matchDot_self]
  simp only [Option.bind]
  have e : '/' :: (cfg.pathPrefix ++ '/' :: rest)
      = ('/' :: (cfg.pathPrefix ++ ['/'])) ++ rest := by simp
  rw [e, matchLit_self]

theorem matchLocTarget_https (cfg : DomainConfig) (rest : Str) :
    matchLocTarget cfg ("https://".data ++ cfg.domain ++ '/' :: (cfg.pathPrefix ++ '/' :: rest))
      = some rest := by
  unfold matchLocTarget
  rw [List.append_assoc, matchScheme_https]
  simp only [Option.bind]
  rw [matchDot_self]
  simp only [Option.bind]
  have e : '/' :: (cfg.pathPrefix ++ '/' :: rest)
      = ('/' :: (cfg.pathPrefix ++ ['/'])) ++ rest := by simp
  rw [e, matchLit_self]

/-- C6 (amended): a 3xx `location` of the exact form
`http(s)://{originHost}/{originPathPrefix}/rest` is rewritten to
`/{prefix}/rest`; a location the (wildcard-dotted) pattern does not match
passes through unchanged; and responses outside 300-399 never have any
header modified.  (The original claim fails only because the unescaped
`.` of the interpolated domain matches any character — see the
counterexample.) -/
theorem C6_redirect_rewrite (cfg : DomainConfig) (rest loc : Str) (r : OriginResponse)
    (hs : r.status < 300 ∨ 400 ≤ r.status) :
    locationRewrite cfg ("http://".data ++ cfg.domain ++ '/' :: (cfg.pathPrefix ++ '/' :: rest))
      = '/' :: (cfg.proxyPrefix ++ '/' :: rest)
    ∧ locationRewrite cfg
        ("https://".data ++ cfg.domain ++ '/' :: (cfg.pathPrefix ++ '/' :: rest))
      = '/' :: (cfg.proxyPrefix ++ '/' :: rest)
    ∧ (matchLocTarget cfg loc = none → locationRewrite cfg loc = loc)
    ∧ redirectStepHeaders cfg r = r.headers := by
  refine ⟨?_, ?_, ?_, ?_⟩
  · unfold locationRewrite
    rw [matchLocTarget_http]
  · unfold locationRewrite
    rw [matchLocTarget_https]
  · intro h
    unfold locationRewrite
    rw [h]
  · unfold redirectStepHeaders
    rw [if_neg]
    omega

theorem C6_redirect_witness :
    locationRewrite stConfig "http://salafitalk.net/st/page2".data = "/st/page2".data
    ∧ redirectStepHeaders stConfig
        { status := 200, headers := [("location".data, "http://salafitalk.net/st/x".data)],
          body := [] }
      = [("location".data, "http://salafitalk.net/st/x".data)] := by
  have h := C6_redirect_rewrite stConfig "page2".data []
    { status := 200, headers := [("location".data, "http://salafitalk.net/st/x".data)],
      body := [] } (Or.inl (by decide))
  have e1 : ("http://".data ++ stConfig.domain
      ++ '/' :: (stConfig.pathPrefix ++ '/' :: "page2".data))
      = "http://salafitalk.net/st/page2".data := by decide
  have e2 : ('/' :: (stConfig.proxyPrefix ++ '/' :: "page2".data)) = "/st/page2".data := by
    decide
  refine ⟨?_, h.2.2.2⟩
  have h1 := h.1
  rw [e1, e2] at h1
  exact h1

/-- C8 (amended): for every origin response whose content-type does not
contain `text/html`, the proxy relays the status code and the body bytes
unchanged (no decoding, no rewriting), and relays exactly those
post-redirect-step headers whose lower-cased name is outside the
forbidden set — no forbidden header is ever copied, and every relayed
header is a header of the (possibly location-rewritten) origin response.
(The original claim fails only for 3xx responses whose `location` value
the redirect step rewrites first — see the counterexample.) -/
theorem C8_nonhtml_passthrough (cfg : DomainConfig) (r : OriginResponse)
    (hct : includesStr "text/html".data
        ((hGet (redirectStepHeaders cfg r) "content-type".data).getD []) = false) :
    handleResolved cfg r
      = some (ProxyOut.raw r.status (relayHeaders (redirectStepHeaders cfg r)) r.body)
    ∧ (∀ kv ∈ relayHeaders (redirectStepHeaders cfg r),
        toLowerStr kv.1 ∉ FORBIDDEN_HEADERS)
    ∧ (∀ kv ∈ redirectStepHeaders cfg r,
        toLowerStr kv.1 ∉ FORBIDDEN_HEADERS → kv ∈ relayHeaders (redirectStepHeaders cfg r))
    ∧ (∀ kv ∈ relayHeaders (redirectStepHeaders cfg r), kv ∈ redirectStepHeaders cfg r) := by
  refine ⟨?_, ?_, ?_, ?_⟩
  · unfold handleResolved
    rw [if_neg]
    simp [hct]
  · intro kv hkv
    have := (List.mem_filter.1 hkv).2
    simpa using this
  · intro kv hkv hf
    exact List.mem_filter.2 ⟨hkv, by simpa using hf⟩
  · intro kv hkv
    exact (List.mem_filter.1 hkv).1

theorem C8_nonhtml_witness :
    handleResolved stConfig
      { status := 200, headers := [("content-type".data, "image/png".data),
                                   ("connection".data, "close".data)], body := [7, 8] }
      = some (ProxyOut.raw 200 [("content-type".data, "image/png".data)] [7, 8]) := by
  have h := C8_nonhtml_passthrough stConfig
    { status := 200, headers := [("content-type".data, "image/png".data),
                                 ("connection".data, "close".data)], body := [7, 8] }
    (by decide)
  have e : relayHeaders (redirectStepHeaders stConfig
      { status := 200, headers := [("content-type".data, "image/png".data),
                                   ("connection".data, "close".data)], body := [7, 8] })
      = [("content-type".data, "image/png".data)] := by decide
  have h1 := h.1
  rw [e] at h1
  exact h1

/-- C10 (amended): on the HTML path the decode-failure check tests only
falsiness, and the single-byte decode is empty exactly when the body is
empty: an empty body yields 500 `Failed to decode text`; a non-empty body
skips that branch, and whenever the rewriter does not throw (it throws
exactly when an href/src absolute-URL match carries a wildcard-matched
host outside the config table) the rewritten text is served as
`text/html; charset=utf-8` with the origin status. -/
theorem C10_decode_check (d : Str) (cfg : DomainConfig) (status : Nat) (body : List Nat)
    (hd : domainLookup d = some cfg) :
    (decodeBytes (encodingOf d) body = [] ↔ body = [])
    ∧ (body = [] →
        handleHtmlResponse d status body = some (ProxyOut.err 500 "Failed to decode text".data))
    ∧ (∀ h, modifyHtml cfg (decodeBytes (encodingOf d) body) = some h → body ≠ [] →
        handleHtmlResponse d status body
          = some (ProxyOut.html status "text/html; charset=utf-8".data h)) := by
  refine ⟨?_, ?_, ?_⟩
  · unfold decodeBytes
    exact List.map_eq_nil_iff
  · intro hb
    subst hb
    unfold handleHtmlResponse
    rw [hd]
    rfl
  · intro h hmod hb
    unfold handleHtmlResponse
    rw [hd]
    have hne : decodeBytes (encodingOf d) body ≠ [] := by
      unfold decodeBytes
      simpa [List.map_eq_nil_iff] using hb
    simp only [if_neg hne]
    rw [hmod]
    rfl

theorem C10_decode_witness :
    handleHtmlResponse "salafitalk.net".data 200 []
      = some (ProxyOut.err 500 "Failed to decode text".data)
    ∧ handleHtmlResponse "salafitalk.net".data 200 ("x".data.map Char.toNat)
      = some (ProxyOut.html 200 "text/html; charset=utf-8".data "x".data) := by
  have h1 := (C10_decode_check "salafitalk.net".data stConfig 200 [] (by decide)).2.1 rfl
  have h2 := (C10_decode_check "salafitalk.net".data stConfig 200
      ("x".data.map Char.toNat) (by decide)).2.2 "x".data (by decide) (by decide)
  exact ⟨h1, h2⟩

theorem dropWhile_length_le (p : Char → Bool) (l : Str) :
    (l.dropWhile p).length ≤ l.length := by
  induction l with
  | nil => simp
  | cons c cs ih =>
    rw [List.dropWhile_cons]
    by_cases h : p c
    · simp only [h, if_true]
      exact Nat.le_trans ih (by simp)
    · simp [h]

theorem matchLit_length : ∀ (p s r : Str), matchLit p s = some r →
    s.length = p.length + r.length
  | [], s, r, h => by
    simp [matchLit] at h
    subst h
    simp
  | p :: ps, [], r, h => by simp [matchLit] at h
  | p :: ps, c :: cs, r, h => by
    by_cases hc : p = c
    · simp only [matchLit, if_pos hc] at h
      have := matchLit_length ps cs r h
      simp [this]
      omega
    · simp [matchLit, hc] at h

theorem matchQuoteCh_length (s : Str) (q : Char) (r : Str)
    (h : matchQuoteCh s = some (q, r)) : s.length = r.length + 1 := by
  cases s with
  | nil => simp [matchQuoteCh] at h
  | cons c cs =>
    by_cases hc : isQuoteCh c
    · simp only [matchQuoteCh, if_pos hc] at h
      injection h with h2
      injection h2 with _ h3
      simp [← h3]
    · simp [matchQuoteCh, hc] at h

theorem matchDot_length : ∀ (p s m r : Str), matchDot p s = some (m, r) →
    s.length = p.length + r.length
  | [], s, m, r, h => by
    simp [matchDot] at h
    rw [← h.2]
    simp
  | p :: ps, [], m, r, h => by simp [matchDot] at h
  | p :: ps, c :: cs, m, r, h => by
    by_cases hc : p = '.' ∨ p = c
    · simp only [matchDot, if_pos hc, Option.map_eq_some'] at h
      obtain ⟨⟨m2, r2⟩, hm, he⟩ := h
      have := matchDot_length ps cs m2 r2 hm
      have hr : r2 = r := by
        have := congrArg Prod.snd he
        simpa using this
      subst hr
      simp [this]
      omega
    · simp [matchDot, hc] at h

theorem matchAttr_length (s a r : Str) (h : matchAttr s = some (a, r)) :
    r.length + 3 ≤ s.length := by
  unfold matchAttr at h
  rcases h1 : matchLit "href".data s with _ | r2
  · rw [h1] at h
    simp only [Option.map_eq_some'] at h
    obtain ⟨r3, hm, he⟩ := h
    have := matchLit_length "src".data s r3 hm
    have hr : r3 = r := by
      have := congrArg Prod.snd he
      simpa using this
    subst hr
    simp at this
    omega
  · rw [h1] at h
    injection h with h2
    have := matchLit_length "href".data s r2 h1
    have hr : r2 = r := by
      have := congrArg Prod.snd h2
      simpa using this
    subst hr
    simp at this
    omega

theorem matchScheme_length (s r : Str) (h : matchScheme s = some r) :
    r.length + 7 ≤ s.length := by
  unfold matchScheme at h
  rcases h1 : matchLit "https://".data s with _ | r2
  · rw [h1] at h
    have := matchLit_length "http://".data s r h
    simp at this
    omega
  · rw [h1] at h
    injection h with h2
    subst h2
    have := matchLit_length "https://".data s r2 h1
    simp at this
    omega

theorem matchDomainAlt_length (s m r : Str) (h : matchDomainAlt s = some (m, r)) :
    r.length + 14 ≤ s.length := by
  unfold matchDomainAlt at h
  rcases h1 : matchDot "salafitalk.net".data s with _ | ⟨m1, r1⟩
  · rw [h1] at h
    rcases h2 : matchDot "sahihmuslim.com".data s with _ | ⟨m2, r2⟩
    · rw [h2] at h
      have := matchDot_length "salafitalk.com".data s m r h
      simp at this
      omega
    · rw [h2] at h
      injection h with h3
      have := matchDot_length "sahihmuslim.com".data s m2 r2 h2
      have hr : r2 = r := by
        have := congrArg Prod.snd h3
        simpa using this
      subst hr
      simp at this
      omega
  · rw [h1] at h
    injection h with h3
    have := matchDot_length "salafitalk.net".data s m1 r1 h1
    have hr : r1 = r := by
      have := congrArg Prod.snd h3
      simpa using this
    subst hr
    simp at this
    omega

theorem matchPathPre_length (s r : Str) (h : matchPathPre s = some r) :
    r.length + 1 ≤ s.length := by
  unfold matchPathPre at h
  split at h
  · next cs =>
    rcases h1 : matchLit "st/".data cs with _ | r1
    · rw [h1] at h
      rcases h2 : matchLit "sps/smm/".data cs with _ | r2
      · rw [h2] at h
        have := matchLit_length "/".data cs r h
        simp at this
        simp
        omega
      · rw [h2] at h
        injection h with h3
        subst h3
        have := matchLit_length "sps/smm/".data cs r2 h2
        simp at this
        simp
        omega
    · rw [h1] at h
      injection h with h3
      subst h3
      have := matchLit_length "st/".data cs r1 h1
      simp at this
      simp
      omega
  · next => exact absurd h (by simp)

theorem tryMatchA_shrink (s : Str) (a d r : Str) (h : tryMatchA s = some (a, d, r)) :
    r.length < s.length := by
  unfold tryMatchA at h
  simp only [Option.bind_eq_some, Option.map_eq_some'] at h
  obtain ⟨⟨a1, s1⟩, h1, ⟨s2, h2, ⟨⟨q3, s3⟩, h3, ⟨s4, h4, ⟨⟨d5, s5⟩, h5, ⟨s6, h6, he⟩⟩⟩⟩⟩⟩ := h
  have l1 := matchAttr_length s a1 s1 h1
  have l2 := matchLit_length "=".data s1 s2 h2
  have l3 := matchQuoteCh_length s2 q3 s3 h3
  have l4 := matchScheme_length s3 s4 h4
  have l5 := matchDomainAlt_length s4 d5 s5 h5
  have l6 := matchPathPre_length s5 s6 h6
  have hr : s6 = r := by
    have := congrArg (fun x => x.2.2) he
    simpa using this
  subst hr
  simp at l2
  omega

theorem tryMatchB_shrink (cfg : DomainConfig) (s : Str) (a r : Str)
    (h : tryMatchB cfg s = some (a, r)) : r.length < s.length := by
  unfold tryMatchB at h
  simp only [Option.bind_eq_some, Option.map_eq_some'] at h
  obtain ⟨⟨a1, s1⟩, h1, ⟨s2, h2, ⟨⟨q3, s3⟩, h3, ⟨s4, h4, he⟩⟩⟩⟩ := h
  have l1 := matchAttr_length s a1 s1 h1
  have l2 := matchLit_length "=".data s1 s2 h2
  have l3 := matchQuoteCh_length s2 q3 s3 h3
  have l4 := matchLit_length ('/' :: (cfg.pathPrefix ++ ['/'])) s3 s4 h4
  have hr : s4 = r := by
    have := congrArg Prod.snd he
    simpa using this
  subst hr
  simp at l2 l4
  omega

theorem tryMatchC_shrink (cfg : DomainConfig) (s : Str) (a r : Str)
    (h : tryMatchC cfg s = some (a, r)) : r.length < s.length := by
  unfold tryMatchC at h
  simp only [Option.bind_eq_some] at h
  obtain ⟨⟨a1, s1⟩, h1, ⟨s2, h2, ⟨⟨q3, s3⟩, h3, h4⟩⟩⟩ := h
  have l1 := matchAttr_length s a1 s1 h1
  have l2 := matchLit_length "=".data s1 s2 h2
  have l3 := matchQuoteCh_length s2 q3 s3 h3
  dsimp only at h4
  split at h4
  · next s4 =>
    by_cases hl : (matchLit cfg.proxyPrefix s4).isSome
    · rw [if_pos hl] at h4
      exact absurd h4 (by simp)
    · rw [if_neg hl] at h4
      injection h4 with h6
      have hr : s4 = r := by
        have := congrArg Prod.snd h6
        simpa using this
      subst hr
      simp at l2 l3
      omega
  · next => exact absurd h4 (by simp)

theorem tryMatchD_shrink (s : Str) (a cap r : Str) (h : tryMatchD s = some (a, cap, r)) :
    r.length < s.length := by
  unfold tryMatchD at h
  simp only [Option.bind_eq_some] at h
  obtain ⟨⟨a1, s1⟩, h1, ⟨s2, h2, ⟨⟨q3, s3⟩, h3, h4⟩⟩⟩ := h
  have l1 := matchAttr_length s a1 s1 h1
  have l2 := matchLit_length "=".data s1 s2 h2
  have l3 := matchQuoteCh_length s2 q3 s3 h3
  dsimp only at h4
  by_cases hla : (matchLit "http".data s3).isSome ∨ (matchLit "//".data s3).isSome
  · simp [hla] at h4
  · simp only [if_neg hla] at h4
    rcases h5 : s3.dropWhile (fun c => !(isQuoteCh c)) with _ | ⟨q2, s4⟩
    · rw [h5] at h4
      simp at h4
    · rw [h5] at h4
      injection h4 with h6
      have hr : s4 = r := by
        have := congrArg (fun x => x.2.2) h6
        simpa using this
      subst hr
      have hd : s4.length + 1 ≤ s3.length := by
        have hlen : (s3.dropWhile (fun c => !(isQuoteCh c))).length ≤ s3.length :=
          dropWhile_length_le _ s3
        rw [h5] at hlen
        simpa using hlen
      simp at l2 l3
      omega

end Salafi
